import Mathlib

/-!
Shallow embedding of `scripts/xdist/pytest_worker_manager.py`.

The script's only effects are calls to the EC2 client (`run_instances`,
`describe_instances`, `terminate_instances`), `time.sleep`, and writing two
text files.  We embed it as a pure interpreter over an environment model
(`EC2Model`) that fixes what the provider returns on each launch attempt and
on each poll tick, and we record every externally visible effect in a trace:
the number of `run_instances` calls, the sleep durations, the id list passed
to each `describe_instances` call, and the files written.
-/

namespace PytestWorkerManager

/-- One entry of a `describe_instances` response: the fields the script reads
(`InstanceId`, `State.Name`, `PrivateIpAddress`). -/
structure InstanceInfo where
  instanceId : String
  stateName : String
  privateIpAddress : String
deriving Repr, DecidableEq

/-- A `describe_instances` response: a list of reservations, each holding a
list of instances, mirroring `response['Reservations'][i]['Instances']`. -/
structure DescribeResponse where
  reservations : List (List InstanceInfo)
deriving Repr, DecidableEq

/-- One entry of `response['Instances']` from `run_instances`; the script only
reads `InstanceId`. -/
structure LaunchedInstance where
  instanceId : String
deriving Repr, DecidableEq

/-- Outcome of one `run_instances` call.  `clientError` is a botocore
`ClientError` (the script's `except` catches exactly this class; AWS
throttling errors are `ClientError`s, but so are all other API errors).
`uncaughtError` is any other exception, which the script does not catch. -/
inductive RunInstancesResult where
  | clientError (err : String)
  | uncaughtError (err : String)
  | ok (instances : List LaunchedInstance)
deriving Repr, DecidableEq

/-- Environment model: what the EC2 client returns.  `runInstances` is indexed
by the requested worker count (`MinCount = MaxCount = number_of_workers`) and
by the attempt number `retry` (starting at 1); `describeInstances` is indexed
by the poll tick (`attempt`, starting at 0) and the queried `InstanceIds`. -/
structure EC2Model where
  runInstances : Nat → Nat → RunInstancesResult
  describeInstances : Nat → List String → DescribeResponse

/-- An error terminating `spin_up_workers`.  `standardError msg` models
`raise StandardError(msg)` — note `StandardError` is a Python 2 name that does
not exist in a Python 3 runtime, so executing that `raise` would itself fail
with a `NameError`; the embedding records the message the script builds.
`uncaught msg` is an exception from the provider that the script never
catches. -/
inductive SpinError where
  | standardError (msg : String)
  | uncaught (msg : String)
deriving Repr, DecidableEq

def WORKER_RUN_TIMEOUT_MINUTES : Nat := 10

def MAX_RUN_WORKER_RETRIES : Nat := 7

/-- The message of the `raise StandardError(...)` on retry exhaustion, with
`{}` filled by `MAX_RUN_WORKER_RETRIES` as in the source's `.format`. -/
def maxRetriesMsg : String :=
  "MAX_RUN_WORKER_RETRIES (7) reached while spinning up tasks due to AWS throttling."

/-- The message of the `raise StandardError(...)` on poll timeout. -/
def timedOutMsg : String := "Timed out waiting to spin up all workers."

/-- Trace of the launch retry loop (`for retry in range(1, MAX+1)`). -/
structure LaunchTrace where
  calls : Nat
  sleeps : List Nat
  result : Except SpinError (List LaunchedInstance)
deriving Repr

/-- The launch retry loop, recursing over the remaining values of `retry`
(the Python loop iterates over `range(1, MAX_RUN_WORKER_RETRIES + 1)`):
on success break, on a `ClientError` at the last retry raise, otherwise
sleep `2 ** retry` and continue.  The `[]` case corresponds to the loop
falling through with `response` unbound (unreachable from the entry point,
since the last iteration either breaks or raises). -/
def launchGo (m : EC2Model) (number_of_workers : Nat) : List Nat → LaunchTrace
  | [] => { calls := 0, sleeps := [], result := .error (.uncaught "NameError: response") }
  | retry :: rest =>
    match m.runInstances number_of_workers retry with
    | .ok instances => { calls := 1, sleeps := [], result := .ok instances }
    | .uncaughtError err => { calls := 1, sleeps := [], result := .error (.uncaught err) }
    | .clientError _ =>
      if retry = MAX_RUN_WORKER_RETRIES then
        { calls := 1, sleeps := [], result := .error (.standardError maxRetriesMsg) }
      else
        let t := launchGo m number_of_workers rest
        { calls := t.calls + 1, sleeps := 2 ^ retry :: t.sleeps, result := t.result }

/-- The whole launch phase: the loop over `retry = 1, ..., MAX_RUN_WORKER_RETRIES`. -/
def launchPhase (m : EC2Model) (number_of_workers : Nat) : LaunchTrace :=
  launchGo m number_of_workers (List.range' 1 MAX_RUN_WORKER_RETRIES)

/-- Body of the inner loop over the instances of a describe response:
`if state == "running": ip_addresses.append(ip) else: not_running.append(id)`.
The accumulator is the pair `(ip_addresses, not_running)`. -/
def processInstanceInfo (acc : List String × List String) (info : InstanceInfo) :
    List String × List String :=
  if info.stateName = "running" then
    (acc.1 ++ [info.privateIpAddress], acc.2)
  else
    (acc.1, acc.2 ++ [info.instanceId])

/-- All instance entries of a describe response, across its reservations. -/
def infosOf (resp : DescribeResponse) : List InstanceInfo :=
  resp.reservations.flatten

/-- Trace of the readiness-polling loop. -/
structure PollTrace where
  describeCalls : List (List String)
  sleeps : List Nat
  ipAddresses : List String
  notRunning : List String
  allRunning : Bool
deriving Repr, DecidableEq

/-- The polling loop, recursing over the remaining values of `attempt`
(the Python loop iterates over `range(0, WORKER_RUN_TIMEOUT_MINUTES * 2)`).
Each tick sleeps 5, issues one batched `describe_instances` over the current
`not_running` list, clears `not_running`, partitions the response, and breaks
when `not_running` has become empty. -/
def pollGo (m : EC2Model) : List Nat → List String → List String → PollTrace
  | [], ipAddresses, notRunning =>
    { describeCalls := [], sleeps := [], ipAddresses := ipAddresses,
      notRunning := notRunning, allRunning := false }
  | attempt :: rest, ipAddresses, notRunning =>
    let resp := m.describeInstances attempt notRunning
    let acc := (infosOf resp).foldl processInstanceInfo (ipAddresses, [])
    if acc.2.length > 0 then
      let t := pollGo m rest acc.1 acc.2
      { describeCalls := notRunning :: t.describeCalls, sleeps := 5 :: t.sleeps,
        ipAddresses := t.ipAddresses, notRunning := t.notRunning,
        allRunning := t.allRunning }
    else
      { describeCalls := [notRunning], sleeps := [5], ipAddresses := acc.1,
        notRunning := acc.2, allRunning := true }

/-- The whole polling phase: `not_running` starts as a copy of the launched
instance ids, `ip_addresses` starts empty. -/
def pollPhase (m : EC2Model) (workerInstanceIds : List String) : PollTrace :=
  pollGo m (List.range (WORKER_RUN_TIMEOUT_MINUTES * 2)) [] workerInstanceIds

/-- Trace of a whole `spin_up_workers` call. -/
structure SpinUpTrace where
  launch : LaunchTrace
  pollTrace : Option PollTrace
  files : List (String × String)
  result : Except SpinError Unit
deriving Repr

/-- `spin_up_workers`: launch with retry, collect the instance ids from the
successful response, poll for readiness, and on success write the two files
(`pytest_worker_ips.txt` from `",".join(ip_addresses)` and
`pytest_worker_instance_ids.txt` from `",".join(worker_instance_ids)`).
An exception on any earlier step propagates before any file is opened. -/
def spin_up_workers (m : EC2Model) (number_of_workers : Nat) : SpinUpTrace :=
  let lt := launchPhase m number_of_workers
  match lt.result with
  | .error e => { launch := lt, pollTrace := none, files := [], result := .error e }
  | .ok instances =>
    let worker_instance_ids := instances.map (·.instanceId)
    let pt := pollPhase m worker_instance_ids
    if pt.allRunning then
      let ip_list_string := String.intercalate "," pt.ipAddresses
      let worker_instance_id_list_string := String.intercalate "," worker_instance_ids
      { launch := lt, pollTrace := some pt,
        files := [("pytest_worker_ips.txt", ip_list_string),
                  ("pytest_worker_instance_ids.txt", worker_instance_id_list_string)],
        result := .ok () }
    else
      { launch := lt, pollTrace := some pt, files := [],
        result := .error (.standardError timedOutMsg) }

/-- Trace of a `terminate_workers` call: the `InstanceIds` list of each
`terminate_instances` request issued. -/
structure TerminateTrace where
  terminateCalls : List (List String)
deriving Repr, DecidableEq

/-- Python's `s.split(',')`, at the character level: split the character list
on `','` and reassemble each piece.  `"".split(',') = ['']` and
`"a,b".split(',') = ['a', 'b']`, which is exactly `List.splitOn`. -/
def splitOnComma (s : String) : List String :=
  (s.data.splitOn ',').map String.mk

/-- `terminate_workers`: split the comma-separated id string and issue one
`terminate_instances` call with the resulting list.  No validation of any
kind is performed before the provider call. -/
def terminate_workers (worker_instance_ids : String) : TerminateTrace :=
  let instance_id_list := splitOnComma worker_instance_ids
  { terminateCalls := [instance_id_list] }

/-! ### Concrete environment models used in the theorems below -/

/-- A provider that answers every `run_instances` call with a throttling
`ClientError` (AWS code `RequestLimitExceeded`). -/
def throttleAlways : EC2Model :=
  { runInstances := fun _ _ => .clientError "RequestLimitExceeded",
    describeInstances := fun _ _ => ⟨[]⟩ }

/-- Like `throttleAlways` but with a different underlying error text, to show
the exhaustion failure does not depend on (wrap) the underlying error. -/
def throttleAlwaysOther : EC2Model :=
  { runInstances := fun _ _ => .clientError "Rate exceeded, try later",
    describeInstances := fun _ _ => ⟨[]⟩ }

/-- A provider whose first `run_instances` call fails with a *non-throttling*
`ClientError` (AWS code `UnauthorizedOperation`, a permissions error, not a
rate limit) and whose second call succeeds. -/
def authFailThenOk : EC2Model :=
  { runInstances := fun _ retry =>
      if retry = 1 then .clientError "UnauthorizedOperation" else .ok [⟨"i-1"⟩],
    describeInstances := fun _ q => ⟨[q.map (fun id => ⟨id, "running", "10.0.0.1"⟩)]⟩ }

/-- A provider that launches one instance `i-1` which first reports state
`running` on poll tick 20 — i.e. after 21 sleeps of 5 time units (105 units),
well inside a 10-minute (600 time-unit) budget. -/
def readyAtTick20 : EC2Model :=
  { runInstances := fun _ _ => .ok [⟨"i-1"⟩],
    describeInstances := fun t q =>
      ⟨[q.map (fun id => ⟨id, if 20 ≤ t then "running" else "pending", "10.0.0.1"⟩)]⟩ }

/-- A provider launching the single instance `i-aaa` that never leaves state
`pending`. -/
def neverReadyA : EC2Model :=
  { runInstances := fun _ _ => .ok [⟨"i-aaa"⟩],
    describeInstances := fun _ q => ⟨[q.map (fun id => ⟨id, "pending", ""⟩)]⟩ }

/-- A provider launching the single instance `i-bbb` that never leaves state
`pending`. -/
def neverReadyB : EC2Model :=
  { runInstances := fun _ _ => .ok [⟨"i-bbb"⟩],
    describeInstances := fun _ q => ⟨[q.map (fun id => ⟨id, "pending", ""⟩)]⟩ }

/-- A provider launching `i-1, i-2` where `i-2` is running already on tick 0
but `i-1` only from tick 1 on: readiness is observed in the order
`i-2, i-1`, the reverse of the launch order. -/
def skewedReadiness : EC2Model :=
  { runInstances := fun _ _ => .ok [⟨"i-1"⟩, ⟨"i-2"⟩],
    describeInstances := fun t q =>
      ⟨[q.map (fun id =>
        if id = "i-2" then ⟨id, "running", "10.0.0.2"⟩
        else if 1 ≤ t then ⟨id, "running", "10.0.0.1"⟩
        else ⟨id, "pending", ""⟩)]⟩ }

/-- A provider launching `i-1, i-2`, both running from the first tick, each
with its own address. -/
def allReadyTick0 : EC2Model :=
  { runInstances := fun _ _ => .ok [⟨"i-1"⟩, ⟨"i-2"⟩],
    describeInstances := fun _ q =>
      ⟨[q.map (fun id => ⟨id, "running", if id = "i-1" then "10.0.0.1" else "10.0.0.2"⟩)]⟩ }

/-- A provider whose `run_instances` raises an exception that is not a
`ClientError` (e.g. a connection error), which the script does not catch. -/
def uncaughtAtFirst : EC2Model :=
  { runInstances := fun _ _ => .uncaughtError "EndpointConnectionError",
    describeInstances := fun _ _ => ⟨[]⟩ }

/-- A provider that is throttled on launch attempts 1, 2, 3 and succeeds on
attempt 4; instances are running from the first poll tick. -/
def throttleThreeThenOk : EC2Model :=
  { runInstances := fun _ retry =>
      if retry ≤ 3 then .clientError "RequestLimitExceeded" else .ok [⟨"i-1"⟩],
    describeInstances := fun _ q => ⟨[q.map (fun id => ⟨id, "running", "10.0.0.9"⟩)]⟩ }

/-! ### Theorems -/

/-- C4 (code evaluated at the failing input): when every `run_instances` call
fails with a throttling `ClientError`, the launch loop makes exactly 7 calls
(never an 8th), sleeps `2,4,8,16,32,64` (no sleep after the 7th, failed,
attempt), and then fails — but the failure is `raise StandardError(...)`
(a name that does not exist in Python 3) with a fixed message that does not
wrap the underlying error: a run whose underlying error text differs produces
the identical failure. -/
theorem c4_retry_exhaustion_behavior :
    (launchPhase throttleAlways 3).calls = 7 ∧
    (launchPhase throttleAlways 3).sleeps = [2, 4, 8, 16, 32, 64] ∧
    (launchPhase throttleAlways 3).result = .error (.standardError maxRetriesMsg) ∧
    (launchPhase throttleAlwaysOther 3).result = (launchPhase throttleAlways 3).result :=
  ⟨rfl, rfl, rfl, rfl⟩

/-- C5 counterexample: a first `run_instances` failure with the
*non-throttling* provider error `UnauthorizedOperation` is **not** propagated
immediately — the script's `except ClientError` catches every `ClientError`,
sleeps `2 ** 1 = 2`, and invokes the operation a second time. -/
theorem c5_nonthrottling_retried_counterexample :
    (launchPhase authFailThenOk 1).calls = 2 ∧
    (launchPhase authFailThenOk 1).sleeps = [2] ∧
    (launchPhase authFailThenOk 1).result = .ok [⟨"i-1"⟩] :=
  ⟨rfl, rfl, rfl⟩

/-- C6 (code evaluated at the failing input): the poll loop runs
`WORKER_RUN_TIMEOUT_MINUTES * 2 = 20` ticks of 5 time units — 100 units of
sleep in total, not the 10-minute (600-unit) budget the constant's name
announces.  An instance that first reports `running` on tick 20 (105 units
in, well inside 10 minutes) is never seen: `spin_up_workers` raises the
timeout error after 20 describe calls. -/
theorem c6_effective_timeout_is_100_units :
    (pollPhase readyAtTick20 ["i-1"]).describeCalls.length =
      WORKER_RUN_TIMEOUT_MINUTES * 2 ∧
    (pollPhase readyAtTick20 ["i-1"]).sleeps.sum = 100 ∧
    (spin_up_workers readyAtTick20 1).result = .error (.standardError timedOutMsg) ∧
    (infosOf (readyAtTick20.describeInstances 20 ["i-1"])).map (·.stateName) =
      ["running"] ∧
    WORKER_RUN_TIMEOUT_MINUTES * 60 = 600 :=
  ⟨rfl, rfl, rfl, rfl, rfl⟩

/-- C7 counterexample: two runs that differ only in which instance never
became ready (`i-aaa` vs `i-bbb`) fail with *identical* errors — the fixed
message `"Timed out waiting to spin up all workers."` — so the timeout
failure does not identify (name) the instances that never became ready. -/
theorem c7_timeout_anonymous_counterexample :
    (spin_up_workers neverReadyA 1).result =
      .error (.standardError "Timed out waiting to spin up all workers.") ∧
    (spin_up_workers neverReadyB 1).result = (spin_up_workers neverReadyA 1).result :=
  ⟨rfl, rfl⟩

/-- C8 counterexample: `terminate_workers` applied to the empty identifier
string is *not* rejected: the empty string is split into `[""]` and exactly
one `terminate_instances` request with `InstanceIds = [""]` is issued to the
provider. -/
theorem c8_empty_teardown_counterexample :
    (terminate_workers "").terminateCalls = [[""]] :=
  rfl

/-- C2 counterexample: with launch order `i-1, i-2` but `i-2` observed
running on tick 0 and `i-1` only on tick 1, the ips artifact is
`"10.0.0.2,10.0.0.1"` while the ids artifact is `"i-1,i-2"`: position 0
pairs `i-1` with `10.0.0.2`, although the provider reported `10.0.0.1` as
the address of `i-1` (second conjunct).  The address artifact is in
readiness-observation order, not launch order, so the two artifacts are not
consistently ordered under this schedule. -/
theorem c2_artifact_order_counterexample :
    (spin_up_workers skewedReadiness 2).files =
      [("pytest_worker_ips.txt", "10.0.0.2,10.0.0.1"),
       ("pytest_worker_instance_ids.txt", "i-1,i-2")] ∧
    (infosOf (skewedReadiness.describeInstances 1 ["i-1"])).map
      (fun e => (e.instanceId, e.privateIpAddress)) = [("i-1", "10.0.0.1")] :=
  ⟨rfl, rfl⟩

/-- C8 amended: `terminate_workers` performs no validation at all — for every
input string, the empty one included, it issues exactly one
`terminate_instances` request whose `InstanceIds` list is the comma-split of
the input. -/
theorem c8_teardown_always_calls_provider (s : String) :
    (terminate_workers s).terminateCalls = [splitOnComma s] :=
  rfl

/-- C10: whenever `spin_up_workers` fails — by launch-retry exhaustion, by an
uncaught provider exception, or by readiness timeout — no file is written:
the two artifact writes sit after every raise site. -/
theorem c10_no_artifacts_on_failure (m : EC2Model) (N : Nat) (e : SpinError)
    (h : (spin_up_workers m N).result = .error e) :
    (spin_up_workers m N).files = [] := by
  unfold spin_up_workers at h ⊢
  cases hl : (launchPhase m N).result with
  | error e2 => simp [hl]
  | ok instances =>
    simp only [hl] at h ⊢
    cases hr : (pollPhase m (instances.map (·.instanceId))).allRunning with
    | true => simp [hr] at h
    | false => simp [hr]

/-- C10 witness: a run that times out (instance `i-aaa` never ready) indeed
fails, and by `c10_no_artifacts_on_failure` writes no file. -/
theorem c10_witness :
    (spin_up_workers neverReadyA 1).result = .error (.standardError timedOutMsg) ∧
    (spin_up_workers neverReadyA 1).files = [] :=
  ⟨rfl, c10_no_artifacts_on_failure neverReadyA 1 (.standardError timedOutMsg) rfl⟩

/-- C5 amended: only an exception that is *not* a `ClientError` propagates
immediately out of the launch loop — one single invocation, no backoff sleep.
(A `ClientError`, throttling or not, is instead caught and retried: see
`c5_nonthrottling_retried_counterexample`.) -/
theorem c5_uncaught_error_propagates (m : EC2Model) (N : Nat) (e : String)
    (h : m.runInstances N 1 = .uncaughtError e) :
    (launchPhase m N).calls = 1 ∧ (launchPhase m N).sleeps = [] ∧
    (launchPhase m N).result = .error (.uncaught e) := by
  have hr : List.range' 1 MAX_RUN_WORKER_RETRIES = 1 :: List.range' 2 6 := rfl
  simp [launchPhase, hr, launchGo, h]

/-- C5 witness: a connection-type error on the first call propagates after
exactly one invocation with no sleep. -/
theorem c5_witness :
    (launchPhase uncaughtAtFirst 1).calls = 1 ∧
    (launchPhase uncaughtAtFirst 1).sleeps = [] ∧
    (launchPhase uncaughtAtFirst 1).result =
      .error (.uncaught "EndpointConnectionError") :=
  c5_uncaught_error_propagates uncaughtAtFirst 1 "EndpointConnectionError" rfl

/-- C7 amended: when some instance never becomes ready within the poll
budget, `spin_up_workers` fails with the *fixed* message
`"Timed out waiting to spin up all workers."` — the same error whatever the
not-ready identifiers are, so the failure does not name them (during polling
only their count is logged). -/
theorem c7_timeout_error_fixed_message (m : EC2Model) (N : Nat)
    (instances : List LaunchedInstance)
    (hl : (launchPhase m N).result = .ok instances)
    (hp : (pollPhase m (instances.map (·.instanceId))).allRunning = false) :
    (spin_up_workers m N).result = .error (.standardError timedOutMsg) := by
  unfold spin_up_workers
  simp [hl, hp]

/-- C7 witness: the never-ready run of `i-aaa` times out with the fixed
message. -/
theorem c7_witness :
    (pollPhase neverReadyA ["i-aaa"]).allRunning = false ∧
    (spin_up_workers neverReadyA 1).result = .error (.standardError timedOutMsg) :=
  ⟨rfl, c7_timeout_error_fixed_message neverReadyA 1 [⟨"i-aaa"⟩] rfl rfl⟩

/-- `2 ^ r + 2 ^ (r+1) + ... + 2 ^ (r+n-1) = 2 ^ (r+n) - 2 ^ r`. -/
lemma two_pow_range'_sum (n : Nat) : ∀ r : Nat,
    ((List.range' r n).map (fun i => 2 ^ i)).sum = 2 ^ (r + n) - 2 ^ r := by
  induction n with
  | zero => intro r; simp
  | succ n ih =>
    intro r
    rw [show List.range' r (n + 1) = r :: List.range' (r + 1) n from rfl]
    rw [List.map_cons, List.sum_cons, ih (r + 1)]
    have h1 : 2 * 2 ^ r ≤ 2 ^ (r + (n + 1)) := by
      have h0 : (2 : Nat) ^ (r + 1) ≤ 2 ^ (r + (n + 1)) :=
        Nat.pow_le_pow_right (by norm_num) (by omega)
      rwa [Nat.pow_succ, Nat.mul_comm] at h0
    have h3 : (2 : Nat) ^ (r + 1) = 2 * 2 ^ r := by rw [Nat.pow_succ, Nat.mul_comm]
    rw [show r + 1 + n = r + (n + 1) from by omega, h3]
    omega

/-- If launch attempts `r, r+1, ..., r+j-1` each hit a `ClientError` and
attempt `r+j ≤ MAX_RUN_WORKER_RETRIES` succeeds, the remaining loop makes
`j+1` calls, sleeps `2 ^ r, ..., 2 ^ (r+j-1)`, and returns the successful
response. -/
lemma launchGo_throttled_then_ok (m : EC2Model) (N : Nat) :
    ∀ (j r : Nat) (instances : List LaunchedInstance),
      1 ≤ r → r + j ≤ MAX_RUN_WORKER_RETRIES →
      (∀ i, r ≤ i → i < r + j → ∃ err, m.runInstances N i = .clientError err) →
      m.runInstances N (r + j) = .ok instances →
      launchGo m N (List.range' r (MAX_RUN_WORKER_RETRIES + 1 - r)) =
        { calls := j + 1, sleeps := (List.range' r j).map (fun i => 2 ^ i),
          result := .ok instances } := by
  have hM : MAX_RUN_WORKER_RETRIES = 7 := rfl
  intro j
  induction j with
  | zero =>
    intro r instances hr hmax hth hok
    have hlen : MAX_RUN_WORKER_RETRIES + 1 - r = (MAX_RUN_WORKER_RETRIES - r) + 1 := by
      omega
    rw [hlen, show List.range' r ((MAX_RUN_WORKER_RETRIES - r) + 1) =
      r :: List.range' (r + 1) (MAX_RUN_WORKER_RETRIES - r) from rfl]
    rw [Nat.add_zero] at hok
    simp [launchGo, hok]
  | succ j ih =>
    intro r instances hr hmax hth hok
    obtain ⟨err, herr⟩ := hth r (le_refl r) (by omega)
    have hrmax : ¬ r = MAX_RUN_WORKER_RETRIES := by omega
    have hlen : MAX_RUN_WORKER_RETRIES + 1 - r = (MAX_RUN_WORKER_RETRIES - r) + 1 := by
      omega
    rw [hlen, show List.range' r ((MAX_RUN_WORKER_RETRIES - r) + 1) =
      r :: List.range' (r + 1) (MAX_RUN_WORKER_RETRIES - r) from rfl]
    have hrec : MAX_RUN_WORKER_RETRIES - r = MAX_RUN_WORKER_RETRIES + 1 - (r + 1) := by
      omega
    have ihr := ih (r + 1) instances (by omega) (by omega)
      (fun i h1 h2 => hth i (by omega) (by omega))
      (by rw [show r + 1 + j = r + (j + 1) from by omega]; exact hok)
    rw [← hrec] at ihr
    simp [launchGo, herr, hrmax, ihr,
      show List.range' r (j + 1) = r :: List.range' (r + 1) j from rfl]

/-- C3: if the launch operation hits a throttling `ClientError` on attempts
`1, ..., k` (with `k < 7`, the maximum) and succeeds on attempt `k+1`, the
loop invokes `run_instances` exactly `k+1` times, its backoff sleeps are
`2 ^ 1, 2 ^ 2, ..., 2 ^ k` (attempt-indexed, none on the successful attempt),
and the total delay is their sum `2 ^ (k+1) - 2`. -/
theorem c3_backoff_invocations_and_delay (m : EC2Model) (N k : Nat)
    (instances : List LaunchedInstance)
    (hk : k < MAX_RUN_WORKER_RETRIES)
    (hth : ∀ i, 1 ≤ i → i ≤ k → ∃ err, m.runInstances N i = .clientError err)
    (hok : m.runInstances N (k + 1) = .ok instances) :
    (launchPhase m N).calls = k + 1 ∧
    (launchPhase m N).sleeps = (List.range' 1 k).map (fun i => 2 ^ i) ∧
    (launchPhase m N).sleeps.sum = 2 ^ (k + 1) - 2 := by
  have h := launchGo_throttled_then_ok m N k 1 instances (le_refl 1)
    (by have hM : MAX_RUN_WORKER_RETRIES = 7 := rfl; omega)
    (fun i h1 h2 => hth i h1 (by omega))
    (by rw [show 1 + k = k + 1 from by omega]; exact hok)
  have hl : launchPhase m N =
      launchGo m N (List.range' 1 (MAX_RUN_WORKER_RETRIES + 1 - 1)) := rfl
  rw [hl, h]
  refine ⟨rfl, rfl, ?_⟩
  have hs := two_pow_range'_sum k 1
  rw [hs, Nat.add_comm 1 k]
  norm_num

/-- The addresses a describe response contributes to `ip_addresses`: the
`PrivateIpAddress` of each entry in state `running`, in response order. -/
def runningIps (infos : List InstanceInfo) : List String :=
  infos.filterMap
    (fun i => if i.stateName = "running" then some i.privateIpAddress else none)

/-- The ids a describe response puts back into `not_running`: the
`InstanceId` of each entry not in state `running`, in response order. -/
def pendingIds (infos : List InstanceInfo) : List String :=
  infos.filterMap
    (fun i => if i.stateName = "running" then none else some i.instanceId)

lemma foldl_process_fst (infos : List InstanceInfo) :
    ∀ ips nr : List String,
      (infos.foldl processInstanceInfo (ips, nr)).1 = ips ++ runningIps infos := by
  induction infos with
  | nil => intro ips nr; simp [runningIps]
  | cons e rest ih =>
    intro ips nr
    by_cases he : e.stateName = "running" <;>
      simp [processInstanceInfo, runningIps, he, ih]

lemma foldl_process_snd (infos : List InstanceInfo) :
    ∀ ips nr : List String,
      (infos.foldl processInstanceInfo (ips, nr)).2 = nr ++ pendingIds infos := by
  induction infos with
  | nil => intro ips nr; simp [pendingIds]
  | cons e rest ih =>
    intro ips nr
    by_cases he : e.stateName = "running" <;>
      simp [processInstanceInfo, pendingIds, he, ih]

lemma runningIps_length_add (infos : List InstanceInfo) :
    (runningIps infos).length + (pendingIds infos).length = infos.length := by
  induction infos with
  | nil => simp [runningIps, pendingIds]
  | cons e rest ih =>
    by_cases he : e.stateName = "running" <;>
      simp [runningIps, pendingIds, he] <;>
      simp [runningIps, pendingIds] at ih <;> omega

lemma mem_runningIps {x : String} {infos : List InstanceInfo}
    (h : x ∈ runningIps infos) :
    ∃ e ∈ infos, e.stateName = "running" ∧ e.privateIpAddress = x := by
  simp only [runningIps, List.mem_filterMap] at h
  obtain ⟨e, he, hx⟩ := h
  by_cases hr : e.stateName = "running"
  · rw [if_pos hr] at hx
    exact ⟨e, he, hr, Option.some.inj hx⟩
  · rw [if_neg hr] at hx
    exact absurd hx (by simp)

lemma mem_pendingIds {x : String} {infos : List InstanceInfo}
    (h : x ∈ pendingIds infos) :
    ∃ e ∈ infos, ¬ e.stateName = "running" ∧ e.instanceId = x := by
  simp only [pendingIds, List.mem_filterMap] at h
  obtain ⟨e, he, hx⟩ := h
  by_cases hr : e.stateName = "running"
  · rw [if_pos hr] at hx
    exact absurd hx (by simp)
  · rw [if_neg hr] at hx
    exact ⟨e, he, hr, Option.some.inj hx⟩

/-- One poll tick, rewritten through the fold projections. -/
lemma pollGo_cons (m : EC2Model) (t : Nat) (rest : List Nat)
    (ips nr : List String) :
    pollGo m (t :: rest) ips nr =
      if (pendingIds (infosOf (m.describeInstances t nr))).length > 0 then
        let tr := pollGo m rest (ips ++ runningIps (infosOf (m.describeInstances t nr)))
          (pendingIds (infosOf (m.describeInstances t nr)))
        { describeCalls := nr :: tr.describeCalls, sleeps := 5 :: tr.sleeps,
          ipAddresses := tr.ipAddresses, notRunning := tr.notRunning,
          allRunning := tr.allRunning }
      else
        { describeCalls := [nr], sleeps := [5],
          ipAddresses := ips ++ runningIps (infosOf (m.describeInstances t nr)),
          notRunning := pendingIds (infosOf (m.describeInstances t nr)),
          allRunning := true } := by
  simp only [pollGo, foldl_process_fst, foldl_process_snd, List.nil_append]

/-- On a successful poll (`all_running = true`), `ip_addresses` collects
exactly one address per initially-pending instance — provided the provider
answers each describe call with exactly as many entries as ids queried — and
every collected address is non-empty, provided running entries carry
non-empty addresses. -/
lemma pollGo_success_invariant (m : EC2Model)
    (hdlen : ∀ t q, (infosOf (m.describeInstances t q)).length = q.length)
    (hdip : ∀ t q, ∀ e ∈ infosOf (m.describeInstances t q),
      e.stateName = "running" → e.privateIpAddress ≠ "") :
    ∀ (ts : List Nat) (ips nr : List String),
      (∀ x ∈ ips, x ≠ "") →
      (pollGo m ts ips nr).allRunning = true →
      (pollGo m ts ips nr).ipAddresses.length = ips.length + nr.length ∧
      ∀ x ∈ (pollGo m ts ips nr).ipAddresses, x ≠ "" := by
  intro ts
  induction ts with
  | nil => intro ips nr hips h; simp [pollGo] at h
  | cons t rest ih =>
    intro ips nr hips h
    rw [pollGo_cons] at h ⊢
    have hmemnew : ∀ x ∈ ips ++ runningIps (infosOf (m.describeInstances t nr)), x ≠ "" := by
      intro x hx
      rcases List.mem_append.mp hx with hx | hx
      · exact hips x hx
      · obtain ⟨e, he, hrun, hip⟩ := mem_runningIps hx
        rw [← hip]
        exact hdip t nr e he hrun
    have hlen := runningIps_length_add (infosOf (m.describeInstances t nr))
    rw [hdlen t nr] at hlen
    by_cases hp : (pendingIds (infosOf (m.describeInstances t nr))).length > 0
    · rw [if_pos hp] at h ⊢
      have := ih (ips ++ runningIps (infosOf (m.describeInstances t nr)))
        (pendingIds (infosOf (m.describeInstances t nr))) hmemnew h
      refine ⟨?_, this.2⟩
      rw [this.1]
      simp only [List.length_append]
      omega
    · rw [if_neg hp] at h ⊢
      refine ⟨?_, hmemnew⟩
      simp only [List.length_append]
      omega

/-- If the launch loop returns a successful response, some attempt's
`run_instances` call produced exactly that response. -/
lemma launchGo_ok_mem (m : EC2Model) (N : Nat) :
    ∀ (ts : List Nat) (instances : List LaunchedInstance),
      (launchGo m N ts).result = .ok instances →
      ∃ r ∈ ts, m.runInstances N r = .ok instances := by
  intro ts
  induction ts with
  | nil => intro instances h; simp [launchGo] at h
  | cons r rest ih =>
    intro instances h
    simp only [launchGo] at h
    cases hr : m.runInstances N r with
    | ok l =>
      rw [hr] at h
      simp at h
      exact ⟨r, List.mem_cons_self r rest, by rw [hr, h]⟩
    | uncaughtError e => rw [hr] at h; simp at h
    | clientError e =>
      rw [hr] at h
      by_cases hmax : r = MAX_RUN_WORKER_RETRIES
      · simp [hmax] at h
      · simp only [hmax, if_false] at h
        obtain ⟨r2, hr2, hok2⟩ := ih instances h
        exact ⟨r2, List.mem_cons_of_mem r hr2, hok2⟩

/-- C1: for a valid request of `N > 0` workers against a provider that honors
`MinCount = MaxCount = N` (a successful launch response has exactly `N`
instances, each with a non-empty id) and whose describe responses cover
exactly the queried ids (same number of entries) with non-empty addresses on
running entries, a successful `spin_up_workers` writes exactly the two
artifacts, each the comma-join of exactly `N` non-empty entries; no partial
fleet is ever written (on failure nothing is written at all). -/
theorem c1_full_fleet_on_success (m : EC2Model) (N : Nat)
    (hpos : 0 < N)
    (hlaunch : ∀ r instances, m.runInstances N r = .ok instances →
      instances.length = N ∧ ∀ inst ∈ instances, inst.instanceId ≠ "")
    (hdlen : ∀ t q, (infosOf (m.describeInstances t q)).length = q.length)
    (hdip : ∀ t q, ∀ e ∈ infosOf (m.describeInstances t q),
      e.stateName = "running" → e.privateIpAddress ≠ "")
    (hok : (spin_up_workers m N).result = .ok ()) :
    ∃ ips ids : List String,
      (spin_up_workers m N).files =
        [("pytest_worker_ips.txt", String.intercalate "," ips),
         ("pytest_worker_instance_ids.txt", String.intercalate "," ids)] ∧
      ips.length = N ∧ ids.length = N ∧
      (∀ x ∈ ips, x ≠ "") ∧ (∀ x ∈ ids, x ≠ "") := by
  cases hl : (launchPhase m N).result with
  | error e => simp [spin_up_workers, hl] at hok
  | ok instances =>
    obtain ⟨r, _, hokr⟩ := launchGo_ok_mem m N _ instances hl
    obtain ⟨hN, hne⟩ := hlaunch r instances hokr
    cases hpoll : (pollPhase m (instances.map (·.instanceId))).allRunning with
    | false => simp [spin_up_workers, hl, hpoll] at hok
    | true =>
      have hpoll2 : (pollGo m (List.range (WORKER_RUN_TIMEOUT_MINUTES * 2)) []
          (instances.map (·.instanceId))).allRunning = true := hpoll
      have hinv := pollGo_success_invariant m hdlen hdip
        (List.range (WORKER_RUN_TIMEOUT_MINUTES * 2)) []
        (instances.map (·.instanceId)) (by simp) hpoll2
      refine ⟨(pollPhase m (instances.map (·.instanceId))).ipAddresses,
        instances.map (·.instanceId), ?_, ?_, ?_, ?_, ?_⟩
      · simp [spin_up_workers, hl, hpoll]
      · have h1 := hinv.1
        simp only [List.length_nil, List.length_map, Nat.zero_add] at h1
        exact h1.trans hN
      · simp [hN]
      · exact hinv.2
      · intro x hx
        obtain ⟨inst, hinst, hid⟩ := List.mem_map.mp hx
        rw [← hid]
        exact hne inst hinst

/-- C1 witness: two workers, both ids and addresses non-empty, both running
on the first tick: the two artifacts each hold exactly 2 entries. -/
theorem c1_witness :
    (spin_up_workers allReadyTick0 2).result = .ok () ∧
    ∃ ips ids : List String,
      (spin_up_workers allReadyTick0 2).files =
        [("pytest_worker_ips.txt", String.intercalate "," ips),
         ("pytest_worker_instance_ids.txt", String.intercalate "," ids)] ∧
      ips.length = 2 ∧ ids.length = 2 ∧
      (∀ x ∈ ips, x ≠ "") ∧ (∀ x ∈ ids, x ≠ "") := by
  refine ⟨rfl, c1_full_fleet_on_success allReadyTick0 2 (by decide) ?_ ?_ ?_ rfl⟩
  · intro r instances h
    simp only [allReadyTick0] at h
    cases h
    exact ⟨rfl, by decide⟩
  · intro t q
    simp [allReadyTick0, infosOf]
  · intro t q e he
    simp [allReadyTick0, infosOf] at he
    obtain ⟨id, hid, hee⟩ := he
    rw [← hee]
    intro _
    by_cases hi : id = "i-1" <;> simp [hi]

/-- The entries of a describe response whose state is `running`, in response
order. -/
def runningEntriesOf (infos : List InstanceInfo) : List InstanceInfo :=
  infos.filter (fun e => e.stateName == "running")

lemma runningIps_eq_map (infos : List InstanceInfo) :
    runningIps infos = (runningEntriesOf infos).map (·.privateIpAddress) := by
  induction infos with
  | nil => simp [runningIps, runningEntriesOf]
  | cons e rest ih =>
    by_cases he : e.stateName = "running" <;>
      simp [runningIps, runningEntriesOf, List.filter_cons, he] <;>
      simp [runningIps, runningEntriesOf] at ih <;>
      exact ih

/-- The sequence of response entries observed in state `running` over the
whole polling loop, in observation order: per tick the running entries of
that tick's response (in response order), ticks in order, stopping as the
loop does. -/
def observedRunning (m : EC2Model) : List Nat → List String → List InstanceInfo
  | [], _ => []
  | t :: rest, pending =>
    if (pendingIds (infosOf (m.describeInstances t pending))).length > 0 then
      runningEntriesOf (infosOf (m.describeInstances t pending)) ++
        observedRunning m rest (pendingIds (infosOf (m.describeInstances t pending)))
    else
      runningEntriesOf (infosOf (m.describeInstances t pending))

/-- `ip_addresses` is exactly the addresses of the observed-running entries,
in observation order. -/
lemma pollGo_ipAddresses_eq (m : EC2Model) :
    ∀ (ts : List Nat) (ips nr : List String),
      (pollGo m ts ips nr).ipAddresses =
        ips ++ (observedRunning m ts nr).map (·.privateIpAddress) := by
  intro ts
  induction ts with
  | nil => intro ips nr; simp [pollGo, observedRunning]
  | cons t rest ih =>
    intro ips nr
    rw [pollGo_cons]
    by_cases hp : (pendingIds (infosOf (m.describeInstances t nr))).length > 0
    · rw [if_pos hp]
      simp only [observedRunning, if_pos hp]
      rw [ih]
      simp [runningIps_eq_map, List.append_assoc]
    · rw [if_neg hp]
      simp only [observedRunning, if_neg hp]
      simp [runningIps_eq_map]

/-- C2 amended: the id artifact is in launch order while the address artifact
is in readiness-observation order (`pollGo_ipAddresses_eq`).  *When* the
observation order coincides with the launch order (hypothesis `hobs` — e.g.
all instances first observed running on one tick, response in query order),
the two artifacts are consistently ordered: the i-th id is zipped with
exactly the address the provider reported for that id (first conjunct), and
these are the comma-joined artifact contents (second conjunct).  For other
schedules the pairing breaks: see `c2_artifact_order_counterexample`. -/
theorem c2_artifacts_aligned_when_observed_in_launch_order (m : EC2Model)
    (N : Nat) (instances : List LaunchedInstance)
    (hl : (launchPhase m N).result = .ok instances)
    (hobs : (observedRunning m (List.range (WORKER_RUN_TIMEOUT_MINUTES * 2))
        (instances.map (·.instanceId))).map (·.instanceId) =
      instances.map (·.instanceId))
    (hok : (spin_up_workers m N).result = .ok ()) :
    (instances.map (·.instanceId)).zip
        ((pollPhase m (instances.map (·.instanceId))).ipAddresses) =
      (observedRunning m (List.range (WORKER_RUN_TIMEOUT_MINUTES * 2))
        (instances.map (·.instanceId))).map
          (fun e => (e.instanceId, e.privateIpAddress)) ∧
    (spin_up_workers m N).files =
      [("pytest_worker_ips.txt", String.intercalate ","
          ((pollPhase m (instances.map (·.instanceId))).ipAddresses)),
       ("pytest_worker_instance_ids.txt", String.intercalate ","
          (instances.map (·.instanceId)))] := by
  have hip : (pollPhase m (instances.map (·.instanceId))).ipAddresses =
      (observedRunning m (List.range (WORKER_RUN_TIMEOUT_MINUTES * 2))
        (instances.map (·.instanceId))).map (·.privateIpAddress) := by
    have h := pollGo_ipAddresses_eq m (List.range (WORKER_RUN_TIMEOUT_MINUTES * 2))
      [] (instances.map (·.instanceId))
    simpa using h
  constructor
  · rw [hip, ← List.zip_map' (·.instanceId) (·.privateIpAddress)
      (observedRunning m (List.range (WORKER_RUN_TIMEOUT_MINUTES * 2))
        (instances.map (·.instanceId))), hobs]
  · cases hpoll : (pollPhase m (instances.map (·.instanceId))).allRunning with
    | false => simp [spin_up_workers, hl, hpoll] at hok
    | true => simp [spin_up_workers, hl, hpoll]

/-- C2 witness: both workers first observed running on tick 0, response in
query order, so observation order = launch order and the artifacts align. -/
theorem c2_witness :
    (["i-1", "i-2"].zip ((pollPhase allReadyTick0 ["i-1", "i-2"]).ipAddresses) =
      (observedRunning allReadyTick0 (List.range (WORKER_RUN_TIMEOUT_MINUTES * 2))
        ["i-1", "i-2"]).map (fun e => (e.instanceId, e.privateIpAddress))) ∧
    (spin_up_workers allReadyTick0 2).files =
      [("pytest_worker_ips.txt", String.intercalate ","
          ((pollPhase allReadyTick0 ["i-1", "i-2"]).ipAddresses)),
       ("pytest_worker_instance_ids.txt", String.intercalate "," ["i-1", "i-2"])] :=
  c2_artifacts_aligned_when_observed_in_launch_order allReadyTick0 2
    [⟨"i-1"⟩, ⟨"i-2"⟩] rfl rfl rfl

/-- Following the spec's words for the poller: the first describe query
covers all pending identifiers, and each subsequent query covers exactly the
identifiers the previous response did not report `running`; the sequence
stops when nothing is pending or the tick budget runs out. -/
def expectedQueries (m : EC2Model) : List Nat → List String → List (List String)
  | [], _ => []
  | t :: rest, pending =>
    if (pendingIds (infosOf (m.describeInstances t pending))).length > 0 then
      pending ::
        expectedQueries m rest (pendingIds (infosOf (m.describeInstances t pending)))
    else
      [pending]

/-- The describe calls the code issues are exactly the spec's expected
queries (independently of the accumulated `ip_addresses`). -/
lemma pollGo_describeCalls_eq (m : EC2Model) :
    ∀ (ts : List Nat) (ips nr : List String),
      (pollGo m ts ips nr).describeCalls = expectedQueries m ts nr := by
  intro ts
  induction ts with
  | nil => intro ips nr; simp [pollGo, expectedQueries]
  | cons t rest ih =>
    intro ips nr
    rw [pollGo_cons]
    by_cases hp : (pendingIds (infosOf (m.describeInstances t nr))).length > 0
    · rw [if_pos hp]
      simp only [expectedQueries, if_pos hp]
      simp [ih]
    · rw [if_neg hp]
      simp only [expectedQueries, if_neg hp]

/-- Consecutive expected queries: the `(j+1)`-th query is exactly the pending
ids of the response to the `j`-th query (ticks run `a, a+1, ...`). -/
lemma expectedQueries_step (m : EC2Model) :
    ∀ (n a : Nat) (nr : List String) (j : Nat) (q q' : List String),
      (expectedQueries m (List.range' a n) nr)[j]? = some q →
      (expectedQueries m (List.range' a n) nr)[j + 1]? = some q' →
      q' = pendingIds (infosOf (m.describeInstances (a + j) q)) := by
  intro n
  induction n with
  | zero =>
    intro a nr j q q' h1 h2
    simp [expectedQueries] at h1
  | succ n ih =>
    intro a nr j q q' h1 h2
    rw [show List.range' a (n + 1) = a :: List.range' (a + 1) n from rfl] at h1 h2
    simp only [expectedQueries] at h1 h2
    by_cases hp : (pendingIds (infosOf (m.describeInstances a nr))).length > 0
    · rw [if_pos hp] at h1 h2
      cases j with
      | zero =>
        rw [List.getElem?_cons_zero] at h1
        have hq : q = nr := (Option.some.inj h1).symm
        rw [List.getElem?_cons_succ] at h2
        cases n with
        | zero => simp [expectedQueries] at h2
        | succ n2 =>
          rw [show List.range' (a + 1) (n2 + 1) = (a + 1) :: List.range' (a + 2) n2
            from rfl] at h2
          simp only [expectedQueries] at h2
          rw [hq, Nat.add_zero]
          by_cases hp2 : (pendingIds (infosOf (m.describeInstances (a + 1)
              (pendingIds (infosOf (m.describeInstances a nr)))))).length > 0
          · rw [if_pos hp2, List.getElem?_cons_zero] at h2
            exact (Option.some.inj h2).symm
          · rw [if_neg hp2, List.getElem?_cons_zero] at h2
            exact (Option.some.inj h2).symm
      | succ j2 =>
        rw [List.getElem?_cons_succ] at h1 h2
        rw [ih (a + 1) _ j2 q q' h1 h2, show a + 1 + j2 = a + (j2 + 1) from by omega]
    · rw [if_neg hp] at h1 h2
      rw [List.getElem?_cons_succ] at h2
      simp at h2

lemma pendingIds_subset_query (m : EC2Model)
    (hsub : ∀ t q, ∀ e ∈ infosOf (m.describeInstances t q), e.instanceId ∈ q)
    (t : Nat) (q : List String) :
    ∀ x ∈ pendingIds (infosOf (m.describeInstances t q)), x ∈ q := by
  intro x hx
  obtain ⟨e, he, _, hid⟩ := mem_pendingIds hx
  rw [← hid]
  exact hsub t q e he

lemma pendingIds_subset_map (infos : List InstanceInfo) :
    ∀ x ∈ pendingIds infos, x ∈ infos.map (·.instanceId) := by
  intro x hx
  obtain ⟨e, he, _, hid⟩ := mem_pendingIds hx
  exact List.mem_map.mpr ⟨e, he, hid⟩

lemma pendingIds_nodup {infos : List InstanceInfo}
    (h : (infos.map (·.instanceId)).Nodup) : (pendingIds infos).Nodup := by
  induction infos with
  | nil => simp [pendingIds]
  | cons e rest ih =>
    simp only [List.map_cons, List.nodup_cons] at h
    by_cases he : e.stateName = "running"
    · rw [show pendingIds (e :: rest) = pendingIds rest from by simp [pendingIds, he]]
      exact ih h.2
    · rw [show pendingIds (e :: rest) = e.instanceId :: pendingIds rest from by
        simp [pendingIds, he]]
      exact List.nodup_cons.mpr
        ⟨fun hmem => h.1 (pendingIds_subset_map rest _ hmem), ih h.2⟩

/-- An entry reported `running` is not among the pending ids of the same
response (assuming the response lists each id at most once). -/
lemma running_not_pending {infos : List InstanceInfo}
    (hnd : (infos.map (·.instanceId)).Nodup)
    {e : InstanceInfo} (he : e ∈ infos) (hr : e.stateName = "running") :
    e.instanceId ∉ pendingIds infos := by
  intro hmem
  obtain ⟨e2, he2, hnr, hid⟩ := mem_pendingIds hmem
  have heq : e2 = e := List.inj_on_of_nodup_map hnd he2 he hid
  rw [heq] at hnr
  exact hnr hr

/-- Every expected query is duplicate-free, provided the initial id list is
and each response lists each id at most once. -/
lemma expectedQueries_nodup (m : EC2Model)
    (hnd : ∀ t q, q.Nodup →
      ((infosOf (m.describeInstances t q)).map (·.instanceId)).Nodup) :
    ∀ (n a : Nat) (nr : List String), nr.Nodup →
      ∀ (j : Nat) (q : List String),
        (expectedQueries m (List.range' a n) nr)[j]? = some q → q.Nodup := by
  intro n
  induction n with
  | zero => intro a nr hnr j q hq; simp [expectedQueries] at hq
  | succ n ih =>
    intro a nr hnr j q hq
    rw [show List.range' a (n + 1) = a :: List.range' (a + 1) n from rfl] at hq
    simp only [expectedQueries] at hq
    by_cases hp : (pendingIds (infosOf (m.describeInstances a nr))).length > 0
    · rw [if_pos hp] at hq
      cases j with
      | zero =>
        rw [List.getElem?_cons_zero] at hq
        rw [← Option.some.inj hq]
        exact hnr
      | succ j2 =>
        rw [List.getElem?_cons_succ] at hq
        exact ih (a + 1) _ (pendingIds_nodup (hnd a nr hnr)) j2 q hq
    · rw [if_neg hp] at hq
      cases j with
      | zero =>
        rw [List.getElem?_cons_zero] at hq
        rw [← Option.some.inj hq]
        exact hnr
      | succ j2 =>
        rw [List.getElem?_cons_succ] at hq
        simp at hq

lemma getElem?_some_pred {α : Type} (l : List α) (j : Nat) (x : α)
    (h : l[j + 1]? = some x) : ∃ y, l[j]? = some y := by
  obtain ⟨hlt, _⟩ := List.getElem?_eq_some.mp h
  have hj : j < l.length := by omega
  exact ⟨l[j], List.getElem?_eq_some.mpr ⟨hj, rfl⟩⟩

/-- C9: (i) the describe call issued on each poll tick is one batched call
covering exactly the currently not-yet-ready identifiers — the code's query
trace equals the spec-side `expectedQueries` sequence; (ii) an identifier
reported `running` on some tick is never part of any later tick's query,
provided each describe response mentions only queried ids, each at most
once, and the initial id list is duplicate-free. -/
theorem c9_queries_exactly_pending (m : EC2Model) (ids : List String)
    (hsub : ∀ t q, ∀ e ∈ infosOf (m.describeInstances t q), e.instanceId ∈ q)
    (hnd : ∀ t q, q.Nodup →
      ((infosOf (m.describeInstances t q)).map (·.instanceId)).Nodup)
    (hids : ids.Nodup) :
    (pollPhase m ids).describeCalls =
      expectedQueries m (List.range (WORKER_RUN_TIMEOUT_MINUTES * 2)) ids ∧
    ∀ j q, ((pollPhase m ids).describeCalls)[j]? = some q →
      ∀ e ∈ infosOf (m.describeInstances j q), e.stateName = "running" →
        ∀ j2 q2, j < j2 → ((pollPhase m ids).describeCalls)[j2]? = some q2 →
          e.instanceId ∉ q2 := by
  have hcalls : (pollPhase m ids).describeCalls =
      expectedQueries m (List.range' 0 (WORKER_RUN_TIMEOUT_MINUTES * 2)) ids := by
    rw [← List.range_eq_range']
    exact pollGo_describeCalls_eq m _ [] ids
  refine ⟨by rw [hcalls, List.range_eq_range'], ?_⟩
  intro j q hq e he hrun j2 q2 hlt hq2
  rw [hcalls] at hq hq2
  have hqnd : q.Nodup := expectedQueries_nodup m hnd _ 0 ids hids j q hq
  obtain ⟨d, rfl⟩ : ∃ d, j2 = j + 1 + d := ⟨j2 - (j + 1), by omega⟩
  clear hlt
  revert q2 hq2
  induction d with
  | zero =>
    intro q2 hq2
    have hstep := expectedQueries_step m _ 0 ids j q q2 hq hq2
    rw [hstep, Nat.zero_add]
    exact running_not_pending (hnd j q hqnd) he hrun
  | succ d ihd =>
    intro q2 hq2
    obtain ⟨q3, hq3⟩ := getElem?_some_pred _ (j + 1 + d) q2 hq2
    have hstep := expectedQueries_step m _ 0 ids (j + 1 + d) q3 q2 hq3 hq2
    have hnotin3 := ihd q3 hq3
    rw [hstep]
    intro hmem
    exact hnotin3 (pendingIds_subset_query m hsub _ q3 _ hmem)

/-- C9 witness: two duplicate-free ids against a provider that reports
exactly the queried ids, once each: the hypotheses hold and the query trace
equals the expected one. -/
theorem c9_witness :
    (pollPhase allReadyTick0 ["i-1", "i-2"]).describeCalls =
      expectedQueries allReadyTick0 (List.range (WORKER_RUN_TIMEOUT_MINUTES * 2))
        ["i-1", "i-2"] ∧
    ∀ j q, ((pollPhase allReadyTick0 ["i-1", "i-2"]).describeCalls)[j]? = some q →
      ∀ e ∈ infosOf (allReadyTick0.describeInstances j q), e.stateName = "running" →
        ∀ j2 q2, j < j2 →
          ((pollPhase allReadyTick0 ["i-1", "i-2"]).describeCalls)[j2]? = some q2 →
          e.instanceId ∉ q2 :=
  c9_queries_exactly_pending allReadyTick0 ["i-1", "i-2"]
    (by
      intro t q e he
      simp only [allReadyTick0, infosOf, List.flatten, List.append_nil,
        List.mem_map] at he
      obtain ⟨id, hid, he2⟩ := he
      rw [← he2]
      exact hid)
    (by
      intro t q hq
      have : (infosOf (allReadyTick0.describeInstances t q)).map (·.instanceId) = q := by
        simp [allReadyTick0, infosOf, List.map_map]
        exact List.map_id q
      rw [this]
      exact hq)
    (by decide)

/-- C3 witness: throttled on attempts 1–3, success on attempt 4: four
invocations, total sleep `2 + 4 + 8 = 14 = 2 ^ 4 - 2`. -/
theorem c3_witness :
    3 < MAX_RUN_WORKER_RETRIES ∧
    (launchPhase throttleThreeThenOk 1).calls = 4 ∧
    (launchPhase throttleThreeThenOk 1).sleeps.sum = 2 ^ 4 - 2 := by
  have h := c3_backoff_invocations_and_delay throttleThreeThenOk 1 3 [⟨"i-1"⟩]
    (by decide)
    (fun i h1 h3 => ⟨"RequestLimitExceeded", by simp [throttleThreeThenOk, h3]⟩)
    rfl
  exact ⟨by decide, h.1, h.2.2⟩

end PytestWorkerManager
